import Mathlib

/-!
Verification development for a small metrics-buffering library
(`src/src/lib.rs`).  The library accumulates named numeric metrics with
units and string dimensions, and serializes them into a CloudWatch
EMF-style JSON payload on flush.

Shallow embedding conventions:
* Rust `HashMap<String, _>` is modelled as an association list with
  unique keys; `insert` overwrites in place when the key is present and
  appends otherwise (matching `HashMap::insert` at the map level; the
  iteration order of the Rust map is unspecified, so payload claims that
  depend on dimension order are stated at the membership level).
* `f64` metric values are modelled as `Float`; the code only stores and
  copies them, it never computes with them.
* The wall clock read by `Utc::now().timestamp_millis()` inside
  `format_metrics` is passed in explicitly as a `now : Int` parameter.
* Writing to stdout/stderr is modelled by an `Output` record of emitted
  lines; the fallible `serde_json::to_string` step is modelled by an
  arbitrary serializer function `CloudWatchMetricsLog → Except String
  String`, so theorems quantify over both the success and failure path.
* The newtype wrappers `DimensionName(String)` and `Namespace(String)`
  are transparent to serde and are modelled as plain `String`.
-/

/-- Constant `MAX_DIMENSIONS` from the source (`const MAX_DIMENSIONS: usize = 30`). -/
def MAX_DIMENSIONS : Nat := 30

/-- Constant `MAX_METRICS` from the source (`const MAX_METRICS: usize = 100`). -/
def MAX_METRICS : Nat := 100

/-- The `MetricUnit` enum from the source, one constructor per variant,
same names. -/
inductive MetricUnit where
  | Seconds
  | Microseconds
  | Milliseconds
  | Bytes
  | Kilobytes
  | Megabytes
  | Gigabytes
  | Terabytes
  | Count
  | BytesPerSecond
  | KilobytesPerSecond
  | MegabytesPerSecond
  | GigabytesPerSecond
  | TerabytesPerSecond
  | BitsPerSecond
  | KilobitsPerSecond
  | MegabitsPerSecond
  | GigabitsPerSecond
  | TerabitsPerSecond
  | CountPerSecond
deriving DecidableEq, Repr, Fintype

/-- The string emitted for a `MetricUnit` variant by the derived serde
`Serialize` implementation: the enum carries no serde rename attributes,
so each unit variant serializes as its bare Rust variant name. -/
def MetricUnit.serializedString : MetricUnit → String
  | .Seconds => "Seconds"
  | .Microseconds => "Microseconds"
  | .Milliseconds => "Milliseconds"
  | .Bytes => "Bytes"
  | .Kilobytes => "Kilobytes"
  | .Megabytes => "Megabytes"
  | .Gigabytes => "Gigabytes"
  | .Terabytes => "Terabytes"
  | .Count => "Count"
  | .BytesPerSecond => "BytesPerSecond"
  | .KilobytesPerSecond => "KilobytesPerSecond"
  | .MegabytesPerSecond => "MegabytesPerSecond"
  | .GigabytesPerSecond => "GigabytesPerSecond"
  | .TerabytesPerSecond => "TerabytesPerSecond"
  | .BitsPerSecond => "BitsPerSecond"
  | .KilobitsPerSecond => "KilobitsPerSecond"
  | .MegabitsPerSecond => "MegabitsPerSecond"
  | .GigabitsPerSecond => "GigabitsPerSecond"
  | .TerabitsPerSecond => "TerabitsPerSecond"
  | .CountPerSecond => "CountPerSecond"

/-- The `Metric` struct: `{ name: String, unit: MetricUnit, value: f64 }`. -/
structure Metric where
  name : String
  unit : MetricUnit
  value : Float

/-- The `MetricDefinition` struct: name, unit, storage resolution. -/
structure MetricDefinition where
  name : String
  unit : MetricUnit
  storage_resolution : Nat
deriving Repr, DecidableEq

/-- Source method `Metric::to_metric_definition`: copies name and unit, fixes
`storage_resolution` to 60. -/
def Metric.to_metric_definition (m : Metric) : MetricDefinition :=
  { name := m.name, unit := m.unit, storage_resolution := 60 }

/-- The `MetricDirective` struct.  `Namespace` and `DimensionName` are
newtype wrappers over `String` in the source and are modelled as plain
strings. -/
structure MetricDirective where
  nameSpace : String
  dimensions : List (List String)
  metrics : List MetricDefinition

/-- The `MetadataObject` struct (`_aws` object): capture timestamp in
milliseconds and the list of metric directives. -/
structure MetadataObject where
  timestamp : Int
  cloud_watch_metrics : List MetricDirective

/-- The `CloudWatchMetricsLog` struct: the `_aws` metadata object plus
the dimension key/value pairs and the metric name/value pairs flattened
at the top level of the JSON object. -/
structure CloudWatchMetricsLog where
  aws : MetadataObject
  dimensions : List (String × String)
  metrics_values : List (String × Float)

/-- Rust `HashMap::insert` on the association-list model: overwrite in place
when the key is present, append otherwise. -/
def hashInsert {α : Type} (m : List (String × α)) (k : String) (v : α) :
    List (String × α) :=
  if m.any (fun p => p.1 == k) then
    m.map (fun p => if p.1 == k then (k, v) else p)
  else
    m ++ [(k, v)]

/-- Rust `.collect::<HashMap<_, _>>()` on an iterator of pairs: repeated
insertion starting from the empty map (later pairs overwrite earlier
ones with the same key). -/
def hashCollect {α : Type} (ps : List (String × α)) : List (String × α) :=
  ps.foldl (fun m p => hashInsert m p.1 p.2) []

/-- The `Metrics` struct: namespace, dimension map, ordered entry list.
(`namespace` is a Lean keyword, so the field is called `nameSpace`.) -/
structure Metrics where
  nameSpace : String
  dimensions : List (String × String)
  entries : List Metric

/-- Lines written to the standard output and standard error channels. -/
structure Output where
  stdout : List String
  stderr : List String
deriving DecidableEq, Repr

/-- Result type of the fallible serialization step
(`serde_json::to_string` mapped to a `String` error). -/
abbrev Serializer := CloudWatchMetricsLog → Except String String

/-- Source method `Metrics::try_add_dimension`: error when the map already has
`MAX_DIMENSIONS` entries, otherwise insert/overwrite the pair.  The
returned `Metrics` is the updated state; `Except.error` leaves the
caller's state unchanged (the Rust method mutates nothing on the error
path). -/
def Metrics.try_add_dimension (s : Metrics) (key value : String) :
    Except String Metrics :=
  if MAX_DIMENSIONS ≤ s.dimensions.length then
    Except.error "Too many dimensions"
  else
    Except.ok { s with dimensions := hashInsert s.dimensions key value }

/-- Source constructor `Metrics::new`: start from an empty dimension map and empty entries,
then add the single mandatory dimension (the `unwrap` cannot fail since
the map is empty; the error branch below is unreachable). -/
def Metrics.new (nameSpace dimension_key dimension_value : String) : Metrics :=
  let s0 : Metrics := { nameSpace := nameSpace, dimensions := [], entries := [] }
  match s0.try_add_dimension dimension_key dimension_value with
  | .ok s => s
  | .error _ => s0

/-- Source method `Metrics::format_metrics`: build the `CloudWatchMetricsLog` payload
from the current state.  `now` is the value of
`Utc::now().timestamp_millis()` at the moment of the call. -/
def Metrics.format_metrics (s : Metrics) (now : Int) : CloudWatchMetricsLog :=
  let metrics_definitions := s.entries.map Metric.to_metric_definition
  let metrics_entries : List MetricDirective :=
    [{ nameSpace := s.nameSpace,
       dimensions := [s.dimensions.map Prod.fst],
       metrics := metrics_definitions }]
  let cloudwatch_metrics : MetadataObject :=
    { timestamp := now, cloud_watch_metrics := metrics_entries }
  let metrics_values := hashCollect (s.entries.map (fun m => (m.name, m.value)))
  { aws := cloudwatch_metrics,
    dimensions := s.dimensions,
    metrics_values := metrics_values }

/-- Source method `Metrics::flush_metrics`: serialize the formatted payload; on
success print the payload line to stdout, on failure print an error line
to stderr; in both cases clear the entry list afterward. -/
def Metrics.flush_metrics (s : Metrics) (ser : Serializer) (now : Int) :
    Metrics × Output :=
  let cleared : Metrics := { s with entries := [] }
  match ser (s.format_metrics now) with
  | .ok payload => (cleared, { stdout := [payload], stderr := [] })
  | .error err =>
      (cleared, { stdout := [], stderr := ["Error when serializing metrics: " ++ err] })

/-- The state change and payload of one flush, independent of the
serializer: `flush_metrics` clears the entries whatever the serializer
returns, and the emitted payload (whether it reaches stdout or is
reported as a serialization failure) is `format_metrics` of the old
state. -/
def Metrics.flush_payload (s : Metrics) (now : Int) :
    Metrics × CloudWatchMetricsLog :=
  ({ s with entries := [] }, s.format_metrics now)

/-- The flush condition tested by `Metrics::add_metric`:
`self.entries.len() >= MAX_METRICS || self.entries.iter().any(|metric|
metric.name == name)`. -/
def Metrics.needs_flush (s : Metrics) (name : String) : Bool :=
  decide (MAX_METRICS ≤ s.entries.length) ||
    s.entries.any (fun metric => metric.name == name)

/-- Source method `Metrics::add_metric`: flush first when the entry cap is reached or
the name duplicates an existing entry, then push the new metric.  The
second component is the list of payloads emitted by implicit flushes
during the call. -/
def Metrics.add_metric (s : Metrics) (now : Int) (name : String)
    (unit : MetricUnit) (value : Float) : Metrics × List CloudWatchMetricsLog :=
  let (s1, events) :=
    if s.needs_flush name then
      let r := s.flush_payload now
      (r.1, [r.2])
    else
      (s, ([] : List CloudWatchMetricsLog))
  ({ s1 with entries := s1.entries ++ [{ name := name, unit := unit, value := value }] },
   events)

/-- Source `impl Drop for Metrics`: print a notice line and flush. -/
def Metrics.drop_metrics (s : Metrics) (ser : Serializer) (now : Int) :
    Metrics × Output :=
  let r := s.flush_metrics ser now
  (r.1, { stdout := "Dropping metrics, publishing metrics" :: r.2.stdout,
          stderr := r.2.stderr })

/-- One public operation on a buffer, with the clock value for the
operations that may emit a payload. -/
inductive Op where
  | addMetric (now : Int) (name : String) (unit : MetricUnit) (value : Float)
  | addDim (key value : String)
  | flush (now : Int)

/-- State transition of one operation (the state component of
`add_metric` / `try_add_dimension` / `flush_metrics`; a failed
`try_add_dimension` leaves the state unchanged). -/
def Metrics.step (s : Metrics) : Op → Metrics
  | .addMetric now name unit value => (s.add_metric now name unit value).1
  | .addDim key value =>
      match s.try_add_dimension key value with
      | .ok s1 => s1
      | .error _ => s
  | .flush now => (s.flush_payload now).1

/-- Run a sequence of operations from a state. -/
def Metrics.run (s : Metrics) (ops : List Op) : Metrics :=
  ops.foldl Metrics.step s

/-- The state invariant of claim C2: entry cap, dimension cap, and
pairwise-distinct metric names within one unflushed generation (plus
unique dimension keys, which the association-list model maintains). -/
def Metrics.Inv (s : Metrics) : Prop :=
  s.entries.length ≤ MAX_METRICS ∧
  (s.entries.map Metric.name).Nodup ∧
  s.dimensions.length ≤ MAX_DIMENSIONS ∧
  (s.dimensions.map Prod.fst).Nodup

/-! ### Helper lemmas about the association-list map -/

theorem hashInsert_keys {α : Type} (m : List (String × α)) (k : String) (v : α) :
    (hashInsert m k v).map Prod.fst =
      if m.any (fun p => p.1 == k) then m.map Prod.fst
      else m.map Prod.fst ++ [k] := by
  unfold hashInsert
  split
  · rw [List.map_map]
    apply List.map_congr_left
    intro p _
    by_cases h : p.1 = k <;> simp [h]
  · simp

theorem hashInsert_length {α : Type} (m : List (String × α)) (k : String) (v : α) :
    (hashInsert m k v).length =
      if m.any (fun p => p.1 == k) then m.length else m.length + 1 := by
  unfold hashInsert
  split <;> simp

theorem hashInsert_of_not_mem {α : Type} {m : List (String × α)} {k : String}
    (v : α) (h : k ∉ m.map Prod.fst) : hashInsert m k v = m ++ [(k, v)] := by
  unfold hashInsert
  rw [if_neg]
  simp only [List.any_eq_true, beq_iff_eq, not_exists]
  intro p
  rintro ⟨hp, hk⟩
  exact h (List.mem_map.mpr ⟨p, hp, hk⟩)

theorem hashInsert_keys_nodup {α : Type} {m : List (String × α)} (k : String)
    (v : α) (h : (m.map Prod.fst).Nodup) :
    ((hashInsert m k v).map Prod.fst).Nodup := by
  rw [hashInsert_keys]
  split
  · exact h
  · rename_i hany
    have hk : k ∉ m.map Prod.fst := by
      simp only [List.any_eq_true, beq_iff_eq, not_exists] at hany
      intro hmem
      obtain ⟨p, hp, hkp⟩ := List.mem_map.mp hmem
      exact hany p ⟨hp, hkp⟩
    simp [List.nodup_append, h, hk]

theorem foldl_hashInsert_of_nodup {α : Type} (ps : List (String × α)) :
    ∀ acc : List (String × α), (ps.map Prod.fst).Nodup →
      (∀ k ∈ ps.map Prod.fst, k ∉ acc.map Prod.fst) →
      ps.foldl (fun m p => hashInsert m p.1 p.2) acc = acc ++ ps := by
  induction ps with
  | nil => intro acc _ _; simp
  | cons p rest ih =>
    intro acc hnodup hdisj
    simp only [List.foldl_cons]
    rw [hashInsert_of_not_mem p.2 (hdisj p.1 (by simp))]
    have hrest : (rest.map Prod.fst).Nodup := by
      simp only [List.map_cons, List.nodup_cons] at hnodup
      exact hnodup.2
    have hdisj2 : ∀ k ∈ rest.map Prod.fst, k ∉ (acc ++ [p]).map Prod.fst := by
      intro k hk
      have hkne : k ≠ p.1 := by
        simp only [List.map_cons, List.nodup_cons] at hnodup
        intro he
        exact hnodup.1 (he ▸ hk)
      have hkacc : k ∉ acc.map Prod.fst :=
        hdisj k (by simp only [List.map_cons, List.mem_cons]; exact Or.inr hk)
      simp only [List.map_append, List.mem_append, List.map_cons, List.map_nil,
        List.mem_singleton]
      rintro (hacc | hsing)
      · exact hkacc hacc
      · exact hkne hsing
    rw [ih (acc ++ [p]) hrest hdisj2]
    simp

theorem hashCollect_of_nodup {α : Type} (ps : List (String × α))
    (h : (ps.map Prod.fst).Nodup) : hashCollect ps = ps := by
  unfold hashCollect
  rw [foldl_hashInsert_of_nodup ps [] h (by simp)]
  simp

/-! ### Helper lemmas about the buffer operations -/

theorem needs_flush_iff (s : Metrics) (name : String) :
    s.needs_flush name = true ↔
      MAX_METRICS ≤ s.entries.length ∨ name ∈ s.entries.map Metric.name := by
  simp only [Metrics.needs_flush, Bool.or_eq_true, decide_eq_true_eq,
    List.any_eq_true, beq_iff_eq, List.mem_map]

theorem new_eq (nameSpace key value : String) :
    Metrics.new nameSpace key value =
      { nameSpace := nameSpace, dimensions := [(key, value)], entries := [] } := rfl

/-! ### Claim theorems -/

/-- Claim C1: `add_metric(name, unit, value)` triggers exactly one
implicit flush (of the old state's payload) before appending exactly
when an entry with the same name already exists or the sequence already
holds `MAX_METRICS` entries, and then the post-state entry sequence is
just the new metric; otherwise no flush occurs and the new entry is
appended to the existing sequence. -/
theorem add_metric_flush_policy (s : Metrics) (now : Int) (name : String)
    (unit : MetricUnit) (value : Float) :
    (s.needs_flush name = true ↔
      MAX_METRICS ≤ s.entries.length ∨ name ∈ s.entries.map Metric.name) ∧
    (s.add_metric now name unit value).2 =
      (if s.needs_flush name then [s.format_metrics now] else []) ∧
    (s.add_metric now name unit value).1.entries =
      (if s.needs_flush name then [{ name := name, unit := unit, value := value }]
       else s.entries ++ [{ name := name, unit := unit, value := value }]) := by
  refine ⟨needs_flush_iff s name, ?_, ?_⟩ <;>
    cases h : s.needs_flush name <;>
      simp [Metrics.add_metric, Metrics.flush_payload, h]

/-- Claim C3: after `flush_metrics` the entry sequence is empty whatever
the serializer did, and the namespace and dimension map are exactly as
before the call. -/
theorem flush_metrics_frame (s : Metrics) (ser : Serializer) (now : Int) :
    (s.flush_metrics ser now).1.entries = [] ∧
    (s.flush_metrics ser now).1.nameSpace = s.nameSpace ∧
    (s.flush_metrics ser now).1.dimensions = s.dimensions := by
  cases h : ser (s.format_metrics now) <;>
    simp [Metrics.flush_metrics, h]

/-- Claim C10: `add_metric` never changes the namespace or the dimension
map, also when it triggers an implicit flush; only the entry sequence is
affected. -/
theorem add_metric_frame (s : Metrics) (now : Int) (name : String)
    (unit : MetricUnit) (value : Float) :
    (s.add_metric now name unit value).1.nameSpace = s.nameSpace ∧
    (s.add_metric now name unit value).1.dimensions = s.dimensions := by
  cases h : s.needs_flush name <;>
    simp [Metrics.add_metric, Metrics.flush_payload, h]

theorem step_preserves_inv (s : Metrics) (op : Op) (h : s.Inv) :
    (s.step op).Inv := by
  obtain ⟨hlen, hnd, hdlen, hdnd⟩ := h
  cases op with
  | addMetric now name unit value =>
    cases hnf : s.needs_flush name with
    | true =>
      simp only [Metrics.step, Metrics.add_metric, Metrics.flush_payload, hnf,
        if_true]
      refine ⟨?_, ?_, hdlen, hdnd⟩
      · simp [MAX_METRICS]
      · simp
    | false =>
      have hor : ¬(MAX_METRICS ≤ s.entries.length ∨
          name ∈ s.entries.map Metric.name) := by
        rw [← needs_flush_iff]
        simp [hnf]
      push_neg at hor
      simp only [Metrics.step, Metrics.add_metric, Metrics.flush_payload, hnf,
        Bool.false_eq_true, if_false]
      refine ⟨?_, ?_, hdlen, hdnd⟩
      · simp only [List.length_append, List.length_cons, List.length_nil,
          MAX_METRICS] at *
        omega
      · simp only [List.map_append, List.map_cons, List.map_nil]
        refine hnd.append (List.nodup_singleton name) ?_
        intro a ha hb
        simp only [List.mem_singleton] at hb
        exact hor.2 (hb ▸ ha)
  | addDim key value =>
    by_cases hd : MAX_DIMENSIONS ≤ s.dimensions.length
    · simp only [Metrics.step, Metrics.try_add_dimension, hd, if_true]
      exact ⟨hlen, hnd, hdlen, hdnd⟩
    · simp only [Metrics.step, Metrics.try_add_dimension, hd, if_false]
      refine ⟨hlen, hnd, ?_, hashInsert_keys_nodup key value hdnd⟩
      rw [hashInsert_length]
      simp only [MAX_DIMENSIONS] at *
      split <;> omega
  | flush now =>
    simp only [Metrics.step, Metrics.flush_payload]
    exact ⟨by simp [MAX_METRICS], by simp, hdlen, hdnd⟩

theorem run_preserves_inv (ops : List Op) :
    ∀ s : Metrics, s.Inv → (s.run ops).Inv := by
  induction ops with
  | nil => intro s h; exact h
  | cons op rest ih =>
    intro s h
    simp only [Metrics.run, List.foldl_cons]
    exact ih (s.step op) (step_preserves_inv s op h)

theorem inv_new (nameSpace key value : String) : (Metrics.new nameSpace key value).Inv := by
  rw [new_eq]
  exact ⟨by simp [MAX_METRICS], by simp, by simp [MAX_DIMENSIONS], by simp⟩

/-- Claim C2: every state reachable from construction by any sequence of
`add_metric`, `try_add_dimension` and `flush_metrics` calls has at most
`MAX_METRICS` entries, at most `MAX_DIMENSIONS` dimensions, and no two
entries sharing a name. -/
theorem reachable_state_invariant (nameSpace key value : String) (ops : List Op) :
    ((Metrics.new nameSpace key value).run ops).entries.length ≤ MAX_METRICS ∧
    ((((Metrics.new nameSpace key value).run ops).entries.map Metric.name)).Nodup ∧
    ((Metrics.new nameSpace key value).run ops).dimensions.length ≤ MAX_DIMENSIONS := by
  have h := run_preserves_inv ops (Metrics.new nameSpace key value)
    (inv_new nameSpace key value)
  exact ⟨h.1, h.2.1, h.2.2.1⟩

/-- Fold `try_add_dimension` over a list of key/value pairs, stopping at
the first error (mirrors a caller loop of `try_add_dimension` calls). -/
def try_add_all (s : Metrics) (kvs : List (String × String)) :
    Except String Metrics :=
  kvs.foldlM (fun t p => t.try_add_dimension p.1 p.2) s

/-- Twenty-nine further distinct dimension keys, added after the one set at
construction in the C4 scenario. -/
def dimKeys29 : List (String × String) :=
  [("k01", "v"), ("k02", "v"), ("k03", "v"), ("k04", "v"), ("k05", "v"),
   ("k06", "v"), ("k07", "v"), ("k08", "v"), ("k09", "v"), ("k10", "v"),
   ("k11", "v"), ("k12", "v"), ("k13", "v"), ("k14", "v"), ("k15", "v"),
   ("k16", "v"), ("k17", "v"), ("k18", "v"), ("k19", "v"), ("k20", "v"),
   ("k21", "v"), ("k22", "v"), ("k23", "v"), ("k24", "v"), ("k25", "v"),
   ("k26", "v"), ("k27", "v"), ("k28", "v"), ("k29", "v")]

/-- Claim C4: `try_add_dimension` errors exactly when the dimension
count is already `MAX_DIMENSIONS`, leaving the mapping unchanged in that
case, and otherwise inserts/overwrites the pair; from a fresh buffer,
the 29 further distinct-key adds all succeed (count 30) and a 31st
distinct-key call fails with the count remaining 30. -/
theorem try_add_dimension_limit :
    (∀ (s : Metrics) (key value : String),
      ((∃ e, s.try_add_dimension key value = Except.error e) ↔
        MAX_DIMENSIONS ≤ s.dimensions.length) ∧
      (MAX_DIMENSIONS ≤ s.dimensions.length →
        s.try_add_dimension key value = Except.error "Too many dimensions" ∧
        s.step (Op.addDim key value) = s) ∧
      (s.dimensions.length < MAX_DIMENSIONS →
        s.try_add_dimension key value =
          Except.ok { s with dimensions := hashInsert s.dimensions key value })) ∧
    (∃ s30 : Metrics,
      try_add_all (Metrics.new "ns" "service" "dummy") dimKeys29 = Except.ok s30 ∧
      s30.dimensions.length = 30 ∧
      s30.try_add_dimension "k31" "v" = Except.error "Too many dimensions" ∧
      s30.step (Op.addDim "k31" "v") = s30) := by
  refine ⟨fun s key value => ⟨?_, fun hd => ⟨?_, ?_⟩, fun hd => ?_⟩,
    ⟨_, rfl, by decide, rfl, rfl⟩⟩
  · constructor
    · rintro ⟨e, he⟩
      by_cases hd : MAX_DIMENSIONS ≤ s.dimensions.length
      · exact hd
      · simp [Metrics.try_add_dimension, hd] at he
    · intro hd
      exact ⟨"Too many dimensions", by simp [Metrics.try_add_dimension, hd]⟩
  · simp [Metrics.try_add_dimension, hd]
  · simp [Metrics.step, Metrics.try_add_dimension, hd]
  · simp [Metrics.try_add_dimension, Nat.not_le.mpr hd]

/-- Witness for C4: the success branch at a fresh buffer (1 dimension)
and the error branch at a buffer already holding 30 dimensions. -/
theorem try_add_dimension_limit_witness :
    (Metrics.new "n" "a" "b").try_add_dimension "c" "d" =
      Except.ok { Metrics.new "n" "a" "b" with
        dimensions := hashInsert (Metrics.new "n" "a" "b").dimensions "c" "d" } ∧
    (Metrics.mk "n" (List.replicate 30 ("a", "b")) []).try_add_dimension "c" "d" =
      Except.error "Too many dimensions" :=
  ⟨(try_add_dimension_limit.1 (Metrics.new "n" "a" "b") "c" "d").2.2 (by decide),
   ((try_add_dimension_limit.1 (Metrics.mk "n" (List.replicate 30 ("a", "b")) [])
      "c" "d").2.1 (by decide)).1⟩

/-- The §8 scenario buffer: namespace "svc", dimension
"service"→"dummy", metric "count" Count=1.0 then "seconds"
Seconds=22.0 (clock reading 0 for the adds, which do not flush). -/
def scenario_metrics : Metrics :=
  (((Metrics.new "svc" "service" "dummy").add_metric 0 "count"
      MetricUnit.Count 1.0).1.add_metric 0 "seconds"
      MetricUnit.Seconds 22.0).1

/-- Claim C5: the payload built at flush has one metric directive with
the buffer's namespace, a single inner dimension array holding every
dimension key, one metric definition per entry in insertion order with
`StorageResolution` 60, and the top level carries every dimension pair
and every metric name/value pair; the spec's "svc" scenario payload is
exactly as stated. -/
theorem format_metrics_shape :
    (∀ (s : Metrics) (now : Int), (s.entries.map Metric.name).Nodup →
      s.format_metrics now =
        { aws := { timestamp := now,
                   cloud_watch_metrics :=
                     [{ nameSpace := s.nameSpace,
                        dimensions := [s.dimensions.map Prod.fst],
                        metrics := s.entries.map Metric.to_metric_definition }] },
          dimensions := s.dimensions,
          metrics_values := s.entries.map (fun m => (m.name, m.value)) }) ∧
    (∀ m : Metric, m.to_metric_definition.storage_resolution = 60) ∧
    scenario_metrics.format_metrics 0 =
      { aws := { timestamp := 0,
                 cloud_watch_metrics :=
                   [{ nameSpace := "svc",
                      dimensions := [["service"]],
                      metrics :=
                        [{ name := "count", unit := MetricUnit.Count,
                           storage_resolution := 60 },
                         { name := "seconds", unit := MetricUnit.Seconds,
                           storage_resolution := 60 }] }] },
        dimensions := [("service", "dummy")],
        metrics_values := [("count", 1.0), ("seconds", 22.0)] } := by
  refine ⟨?_, fun m => rfl, rfl⟩
  intro s now h
  have hkeys : ((s.entries.map (fun m => (m.name, m.value))).map Prod.fst).Nodup := by
    rw [List.map_map]
    exact h
  simp only [Metrics.format_metrics]
  rw [hashCollect_of_nodup _ hkeys]

/-- Witness for C5: the general payload-shape part applied to the "svc"
scenario buffer at clock reading 5. -/
theorem format_metrics_shape_witness :
    scenario_metrics.format_metrics 5 =
      { aws := { timestamp := 5,
                 cloud_watch_metrics :=
                   [{ nameSpace := scenario_metrics.nameSpace,
                      dimensions := [scenario_metrics.dimensions.map Prod.fst],
                      metrics :=
                        scenario_metrics.entries.map Metric.to_metric_definition }] },
        dimensions := scenario_metrics.dimensions,
        metrics_values := scenario_metrics.entries.map (fun m => (m.name, m.value)) } :=
  format_metrics_shape.1 scenario_metrics 5 (by decide)

/-- Claim C6 is refuted by the code: the derived serde serialization of
the rate variants emits the bare Rust variant name with no slash, e.g.
`"BytesPerSecond"`, while the backend's documented vocabulary (which the
source's own doc comment points to) uses slash-style names like
`"Bytes/Second"`; the non-rate names such as `"Seconds"` and `"Count"`
do match, and each variant does map to one fixed string. -/
theorem unit_serialized_strings :
    MetricUnit.serializedString MetricUnit.Seconds = "Seconds" ∧
    MetricUnit.serializedString MetricUnit.Count = "Count" ∧
    MetricUnit.serializedString MetricUnit.BytesPerSecond = "BytesPerSecond" ∧
    MetricUnit.serializedString MetricUnit.BytesPerSecond ≠ "Bytes/Second" ∧
    MetricUnit.serializedString MetricUnit.CountPerSecond ≠ "Count/Second" ∧
    ∀ u : MetricUnit, '/' ∉ (MetricUnit.serializedString u).data := by
  refine ⟨rfl, rfl, rfl, by decide, by decide, ?_⟩
  intro u
  cases u <;> decide

/-- Claim C7: `flush_metrics` never raises: the entries are cleared in
both cases; on serialization success the payload line goes to stdout and
nothing to stderr; on serialization failure the message goes to stderr
and nothing is written to stdout. -/
theorem flush_metrics_error_channel (s : Metrics) (ser : Serializer) (now : Int) :
    (s.flush_metrics ser now).1.entries = [] ∧
    (∀ payload, ser (s.format_metrics now) = Except.ok payload →
      (s.flush_metrics ser now).2 = { stdout := [payload], stderr := [] }) ∧
    (∀ err, ser (s.format_metrics now) = Except.error err →
      (s.flush_metrics ser now).2 =
        { stdout := [],
          stderr := ["Error when serializing metrics: " ++ err] }) := by
  refine ⟨?_, ?_, ?_⟩
  · cases h : ser (s.format_metrics now) <;> simp [Metrics.flush_metrics, h]
  · intro payload hp
    simp [Metrics.flush_metrics, hp]
  · intro err he
    simp [Metrics.flush_metrics, he]

/-- Witness for C7: a serializer that succeeds and one that fails, both
applied to a fresh buffer. -/
theorem flush_metrics_error_channel_witness :
    ((Metrics.new "n" "a" "b").flush_metrics (fun _ => Except.ok "p") 0).2 =
      { stdout := ["p"], stderr := [] } ∧
    ((Metrics.new "n" "a" "b").flush_metrics (fun _ => Except.error "boom") 0).2 =
      { stdout := [],
        stderr := ["Error when serializing metrics: " ++ "boom"] } :=
  ⟨(flush_metrics_error_channel (Metrics.new "n" "a" "b")
      (fun _ => Except.ok "p") 0).2.1 "p" rfl,
   (flush_metrics_error_channel (Metrics.new "n" "a" "b")
      (fun _ => Except.error "boom") 0).2.2 "boom" rfl⟩

/-- Claim C8: dropping the buffer performs a flush (the `Drop` impl
prints a notice line and calls `flush_metrics`), so the payload emitted
at end of life carries every entry still in the buffer; after an
explicit flush, the second (end-of-life) flush emits a payload with an
empty metric list and no flattened metric values. -/
theorem drop_performs_flush (s : Metrics) (ser : Serializer) (now now2 : Int) :
    (s.drop_metrics ser now).1 = (s.flush_metrics ser now).1 ∧
    (s.drop_metrics ser now).2.stdout =
      "Dropping metrics, publishing metrics" :: (s.flush_metrics ser now).2.stdout ∧
    (s.drop_metrics ser now).2.stderr = (s.flush_metrics ser now).2.stderr ∧
    (s.format_metrics now).aws.cloud_watch_metrics =
      [{ nameSpace := s.nameSpace,
         dimensions := [s.dimensions.map Prod.fst],
         metrics := s.entries.map Metric.to_metric_definition }] ∧
    ((s.flush_metrics ser now).1.format_metrics now2).aws.cloud_watch_metrics =
      [{ nameSpace := s.nameSpace,
         dimensions := [s.dimensions.map Prod.fst],
         metrics := [] }] ∧
    ((s.flush_metrics ser now).1.format_metrics now2).metrics_values = [] := by
  have hfst : (s.flush_metrics ser now).1 = { s with entries := [] } := by
    cases h : ser (s.format_metrics now) <;> simp [Metrics.flush_metrics, h]
  refine ⟨rfl, rfl, rfl, rfl, ?_, ?_⟩ <;>
    rw [hfst] <;> simp [Metrics.format_metrics, hashCollect]

/-- The payload with its capture timestamp normalized to 0: what the
flushed bytes look like apart from the `_aws.Timestamp` field. -/
def scrub_timestamp (p : CloudWatchMetricsLog) : CloudWatchMetricsLog :=
  { p with aws := { p.aws with timestamp := 0 } }

/-- Counterexample to claim C9 as stated: the payload built by
`format_metrics` embeds the wall-clock reading, so two flushes of the
same buffer state at different clock readings produce different
payloads (hence different output bytes). -/
theorem flush_output_depends_on_clock :
    Metrics.format_metrics (Metrics.new "n" "a" "b") 0 ≠
      Metrics.format_metrics (Metrics.new "n" "a" "b") 1 := by
  intro h
  have ht := congrArg (fun p => p.aws.timestamp) h
  simp [Metrics.format_metrics] at ht

/-- Claim C9 amended: every operation is deterministic given the clock
reading: the post-state of `add_metric` and of `flush_metrics` does not
depend on the clock at all, the flushed payload depends on the clock
only through the `_aws.Timestamp` field, and flushes with equal clock
readings from equal states produce identical payloads and output. -/
theorem operations_deterministic_modulo_timestamp (s : Metrics)
    (ser : Serializer) (now1 now2 : Int) (name : String) (unit : MetricUnit)
    (value : Float) :
    (s.add_metric now1 name unit value).1 = (s.add_metric now2 name unit value).1 ∧
    (s.flush_metrics ser now1).1 = (s.flush_metrics ser now2).1 ∧
    scrub_timestamp (s.format_metrics now1) =
      scrub_timestamp (s.format_metrics now2) ∧
    (now1 = now2 → s.flush_metrics ser now1 = s.flush_metrics ser now2) := by
  refine ⟨?_, ?_, rfl, fun h => by rw [h]⟩
  · cases h : s.needs_flush name <;>
      simp [Metrics.add_metric, Metrics.flush_payload, h]
  · cases h1 : ser (s.format_metrics now1) <;>
      cases h2 : ser (s.format_metrics now2) <;>
        simp [Metrics.flush_metrics, h1, h2]

/-- Witness for the amended C9: equal clock readings give the identical
flush result on a fresh buffer. -/
theorem operations_deterministic_witness :
    (Metrics.new "n" "a" "b").flush_metrics (fun _ => Except.ok "p") 7 =
      (Metrics.new "n" "a" "b").flush_metrics (fun _ => Except.ok "p") 7 :=
  (operations_deterministic_modulo_timestamp (Metrics.new "n" "a" "b")
    (fun _ => Except.ok "p") 7 7 "m" MetricUnit.Count 1.0).2.2.2 rfl
